import Mathlib

set_option maxRecDepth 4000

/-!
Shallow embedding of `src/lib/pagination-detector.js` (class `PaginationDetector`).

The DOM is modelled as a tree of elements (`Elem`), a document as a list of root
elements together with the current location (`Doc`).  CSS selector queries are
modelled as predicate filters over the preorder (= document-order) traversal of
the tree, descendant-combinator queries via an "under a matching container" flag
traversal.  JS strings are Lean `String`s; JS `null`/`undefined` attribute values
are `Option String` (the empty string and an absent `href` *property* behave
identically at every use-site of the source, so they are conflated as `none`
where the source only tests truthiness).  Regexes of the source are translated to
the substring tests they perform (all the source's regexes are alternations of
literals, optionally with `.*` gaps, anchored only in `/^\d+$/`); case-insensitive
matching is ASCII case folding.  Numeric confidences are kept in hundredths
(100 = 1.0) to stay in `Nat`.
-/

/-! ### String helpers (kernel-reducible replacements for the JS string ops) -/

/-- Lowercasing a character, ASCII case folding (JS `/i`, `toLowerCase`). -/
def lcChar (c : Char) : Char := c.toLower

/-- Lowercase a character list. -/
def lowerChars (s : List Char) : List Char := s.map lcChar

/-- Boolean list-prefix test. -/
def isPrefixL : List Char → List Char → Bool
  | [], _ => true
  | _ :: _, [] => false
  | a :: as, b :: bs => a == b && isPrefixL as bs

/-- Boolean contiguous-substring test. -/
def isInfixL (pat : List Char) : List Char → Bool
  | [] => pat.isEmpty
  | c :: rest => isPrefixL pat (c :: rest) || isInfixL pat rest

/-- Case-insensitive substring test: JS `/word/i.test(s)` for a literal word. -/
def containsCI (s pat : String) : Bool :=
  isInfixL (lowerChars pat.data) (lowerChars s.data)

/-- Case-sensitive substring test: JS `String.includes` / a literal regex without
`/i` (used for the CJK literals and the arrow glyphs, which have no case). -/
def containsCS (s pat : String) : Bool := isInfixL pat.data s.data

/-- Substring test against a list of literal alternatives (regex `a|b|...`). -/
def containsAnyOf (s : String) (pats : List String) : Bool :=
  pats.any (fun p => containsCS s p)

/-- Does `b` occur in `s`, with no newline before the occurrence?  Building block
for `.*` gaps (JS `.` does not match a newline). -/
def occursNoNl (b : List Char) : List Char → Bool
  | [] => b.isEmpty
  | c :: rest => isPrefixL b (c :: rest) || (!(c == Char.ofNat 10) && occursNoNl b rest)

/-- JS `/a.*b/` matching: an occurrence of `a` followed, with no intervening
newline, by an occurrence of `b`. -/
def chainMatchAux (a b : List Char) : List Char → Bool
  | [] => false
  | c :: rest =>
    (isPrefixL a (c :: rest) && occursNoNl b ((c :: rest).drop a.length))
      || chainMatchAux a b rest

/-- JS `/a.*b/i.test(s)` for literal `a`, `b`. -/
def containsThenCI (s a b : String) : Bool :=
  chainMatchAux (lowerChars a.data) (lowerChars b.data) (lowerChars s.data)

/-- Strip leading and trailing whitespace (JS `String.trim`). -/
def trimChars (s : List Char) : List Char :=
  ((s.dropWhile Char.isWhitespace).reverse.dropWhile Char.isWhitespace).reverse

/-- JS `String.trim`. -/
def jsTrim (s : String) : String := ⟨trimChars s.data⟩

/-- Split on whitespace runs, dropping empty pieces (the DOM's `classList` view of
a `class` attribute). -/
def wsSplitAux : List Char → List Char → List String
  | [], acc => if acc.isEmpty then [] else [(⟨acc.reverse⟩ : String)]
  | c :: rest, acc =>
    if c.isWhitespace then
      (if acc.isEmpty then [] else [(⟨acc.reverse⟩ : String)]) ++ wsSplitAux rest []
    else wsSplitAux rest (c :: acc)

/-- Whitespace-separated tokens of a `class` attribute value. -/
def splitClasses (s : String) : List String := wsSplitAux s.data []

/-- Value of a digit run as a natural number. -/
def digitsToNat (ds : List Char) : Nat :=
  ds.foldl (fun a c => a * 10 + (c.toNat - 48)) 0

/-- Longest leading digit run, `none` when there is none. -/
def parseDigits (cs : List Char) : Option Nat :=
  let ds := cs.takeWhile Char.isDigit
  if ds.isEmpty then none else some (digitsToNat ds)

/-- JS `parseInt` in base 10: skip leading whitespace, optional sign, then the
longest digit run; `NaN` (here `none`) when no digit follows. -/
def jsParseInt (s : String) : Option Int :=
  match s.data.dropWhile Char.isWhitespace with
  | '-' :: rest => (parseDigits rest).map (fun n => -(n : Int))
  | '+' :: rest => (parseDigits rest).map (fun n => (n : Int))
  | cs => (parseDigits cs).map (fun n => (n : Int))

/-- JS truthiness of a nullable string: `null`/`undefined`/`""` are falsy. -/
def jsTruthyStr : Option String → Option String
  | some s => if s == "" then none else some s
  | none => none

/-! ### The document model -/

/-- Per-element data: the attributes, properties, computed style and geometry the
source reads.  `href` is the element's resolved `href` (present iff the attribute
is; the absent-property empty string is conflated with `none`, see the header). -/
structure ElemData where
  tag : String := ""
  idAttr : String := ""
  className : String := ""
  href : Option String := none
  onclickAttr : Option String := none
  dataHref : Option String := none
  dataUrl : Option String := none
  dataLink : Option String := none
  titleAttr : Option String := none
  altAttr : Option String := none
  valueAttr : Option String := none
  relAttr : Option String := none
  ariaLabel : Option String := none
  ariaLabelledBy : Option String := none
  ariaCurrent : Option String := none
  roleAttr : Option String := none
  disabledAttr : Option String := none
  textContent : String := ""
  innerText : String := ""
  display : String := "block"
  visibility : String := "visible"
  opacity : String := "1"
  rectWidth : Nat := 10
  rectHeight : Nat := 10
  deriving Repr, DecidableEq

/-- A DOM element: its data and its child elements, in document order. -/
inductive Elem where
  | node (data : ElemData) (children : List Elem)

/-- The element's data. -/
def Elem.data : Elem → ElemData
  | .node d _ => d

/-- The element's children. -/
def Elem.children : Elem → List Elem
  | .node _ cs => cs

mutual
/-- Preorder (= document order) traversal of one element's subtree. -/
def preorderElem : Elem → List Elem
  | .node d cs => .node d cs :: preorderList cs
/-- Preorder traversal of a forest. -/
def preorderList : List Elem → List Elem
  | [] => []
  | e :: es => preorderElem e ++ preorderList es
end

/-- A document: root elements plus the current `window.location.href`. -/
structure Doc where
  roots : List Elem
  locationHref : String := "about:blank"

/-- All elements of the document, in document order. -/
def allElems (d : Doc) : List Elem := preorderList d.roots

/-- `document.querySelector` for a selector modelled as an element predicate:
first match in document order. -/
def querySelector (d : Doc) (p : Elem → Bool) : Option Elem := (allElems d).find? p

/-- `document.querySelectorAll`: all matches in document order. -/
def querySelectorAll (d : Doc) (p : Elem → Bool) : List Elem := (allElems d).filter p

/-- `document.getElementById`: first element carrying the id. -/
def getElementById (d : Doc) (i : String) : Option Elem :=
  (allElems d).find? (fun e => e.data.idAttr == i)

/-- Proper descendants of an element, in document order. -/
def descendants (e : Elem) : List Elem := preorderList e.children

/-- `container.querySelectorAll(p)`: matching proper descendants. -/
def queryAllWithin (e : Elem) (p : Elem → Bool) : List Elem := (descendants e).filter p

mutual
/-- Elements of a subtree that satisfy `elemP` and lie strictly below an element
satisfying `contP` (the CSS descendant combinator `contP elemP`), document order;
`under` records whether an ancestor already matched `contP`. -/
def collectUnder (contP elemP : Elem → Bool) (under : Bool) : Elem → List Elem
  | .node d cs =>
    (if under && elemP (.node d cs) then [Elem.node d cs] else [])
      ++ collectUnderList contP elemP (under || contP (.node d cs)) cs
/-- Forest version of `collectUnder`. -/
def collectUnderList (contP elemP : Elem → Bool) (under : Bool) : List Elem → List Elem
  | [] => []
  | e :: es => collectUnder contP elemP under e ++ collectUnderList contP elemP under es
end

/-- Document-level descendant-combinator query (e.g. `.pagination a`). -/
def queryDescOf (d : Doc) (contP elemP : Elem → Bool) : List Elem :=
  collectUnderList contP elemP false d.roots

/-- The element's `classList`. -/
def classListOf (e : Elem) : List String := splitClasses e.data.className

/-- `element.classList.contains c` / the CSS class selector `.c`. -/
def hasClass (e : Elem) (c : String) : Bool := (classListOf e).contains c

/-! ### Selector predicates used by the detector -/

/-- CSS `a[href]`. -/
def isAnchorWithHref (e : Elem) : Bool := e.data.tag == "a" && e.data.href.isSome

/-- CSS `a[href], button[onclick], button[data-href]` — the clickable universe of
the text-content and class/id matchers. -/
def clickablePred (e : Elem) : Bool :=
  isAnchorWithHref e
    || (e.data.tag == "button" && e.data.onclickAttr.isSome)
    || (e.data.tag == "button" && e.data.dataHref.isSome)

/-- `querySelectorAll` result for the clickable universe. -/
def clickables (d : Doc) : List Elem := querySelectorAll d clickablePred

/-- CSS `[aria-label], [aria-labelledby]`. -/
def ariaPred (e : Elem) : Bool :=
  e.data.ariaLabel.isSome || e.data.ariaLabelledBy.isSome

/-- Elements scanned by the aria-label matcher. -/
def ariaElems (d : Doc) : List Elem := querySelectorAll d ariaPred

/-- CSS `button, a[href], [role="button"]` — the infinite-scroll universe. -/
def infScrollPred (e : Elem) : Bool :=
  e.data.tag == "button" || isAnchorWithHref e || e.data.roleAttr == some "button"

/-- Elements scanned by the infinite-scroll matcher. -/
def infScrollElems (d : Doc) : List Elem := querySelectorAll d infScrollPred

/-- CSS `a[rel="v"], link[rel="v"]`. -/
def relSelPred (rv : String) (e : Elem) : Bool :=
  (e.data.tag == "a" || e.data.tag == "link") && e.data.relAttr == some rv

/-! ### Extractors and validator -/

/-- `getAttribute(x) || ''`. -/
def optAttr (o : Option String) : String := o.getD ""

/-- `getElementText`: `textContent || innerText || ''`, then the `title`, `alt`
and `value` attributes appended with spaces, trimmed. -/
def getElementText (e : Elem) : String :=
  let base := if e.data.textContent == "" then e.data.innerText else e.data.textContent
  jsTrim (base ++ " " ++ optAttr e.data.titleAttr ++ " " ++ optAttr e.data.altAttr
      ++ " " ++ optAttr e.data.valueAttr)

/-- Is the character a single or double quote (regex class for the quote chars of
the onclick URL pattern)? -/
def isQuote (c : Char) : Bool := c.toNat == 39 || c.toNat == 34

/-- Tail of the onclick regex after the anchor literal:
whitespace, `=`, whitespace, a quote, one or more non-quote characters (the
captured URL), then a closing quote (either kind). -/
def parseAssignTail (cs : List Char) : Option String :=
  match cs.dropWhile Char.isWhitespace with
  | '=' :: rest =>
    (match rest.dropWhile Char.isWhitespace with
     | q :: rest2 =>
       if isQuote q then
         let content := rest2.takeWhile (fun c => !(isQuote c))
         if content.isEmpty then none
         else match rest2.drop content.length with
           | _ :: _ => some (⟨content⟩ : String)
           | [] => none
       else none
     | [] => none)
  | _ => none

/-- Scan an onclick handler for the source's URL-extraction regex
`(?:location\.href|window\.location)\s*=\s*[quote]([^quotes]+)[quote]`,
left to right, first full match wins. -/
def scanOnclick : List Char → Option String
  | [] => none
  | c :: rest =>
    if isPrefixL ("location.href").data (c :: rest) then
      match parseAssignTail ((c :: rest).drop 13) with
      | some u => some u
      | none => scanOnclick rest
    else if isPrefixL ("window.location").data (c :: rest) then
      match parseAssignTail ((c :: rest).drop 15) with
      | some u => some u
      | none => scanOnclick rest
    else scanOnclick rest

/-- `getElementUrl`: `href` property first, then the `data-href`/`data-url`/
`data-link` attributes (JS `||`, so empty values fall through), then the onclick
regex extraction; `none` when nothing resolves. -/
def getElementUrl (e : Elem) : Option String :=
  match jsTruthyStr e.data.href with
  | some u => some u
  | none =>
    match jsTruthyStr e.data.dataHref with
    | some u => some u
    | none =>
      match jsTruthyStr e.data.dataUrl with
      | some u => some u
      | none =>
        match jsTruthyStr e.data.dataLink with
        | some u => some u
        | none =>
          match jsTruthyStr e.data.onclickAttr with
          | some oc => scanOnclick oc.data
          | none => none

/-- The DOM `disabled` *property*: reflects the attribute on form controls
(`button` is the only form-control tag the detector's universes contain),
`undefined` (falsy) on anchors and other elements. -/
def jsDisabledProp (e : Elem) : Bool :=
  e.data.tag == "button" && e.data.disabledAttr.isSome

/-- `isValidNextPageElement`: rejects `display:none` / `visibility:hidden` /
`opacity === '0'`, a zero-width-and-zero-height box, and disabled elements
(property, or attribute string-equal to `'true'`). -/
def isValidNextPageElement (e : Elem) : Bool :=
  if e.data.display == "none" || e.data.visibility == "hidden" || e.data.opacity == "0" then
    false
  else if e.data.rectWidth == 0 && e.data.rectHeight == 0 then
    false
  else if jsDisabledProp e || e.data.disabledAttr == some "true" then
    false
  else
    true

/-! ### Pattern lists of the constructor -/

/-- `textPatterns`: each regex as the substring test it performs (`/next\s*(page)?/i`
matches exactly when `next` occurs, since the rest of it is optional). -/
def textPatternTests : List (String → Bool) :=
  [ fun s => containsCI s "next",
    fun s => containsCI s "siguiente",
    fun s => containsCI s "suivant",
    fun s => containsCI s "weiter",
    fun s => containsCS s "次へ" || containsCS s "次のページ",
    fun s => containsCS s "다음",
    fun s => containsCS s "下一页" || containsCS s "下一頁",
    fun s => containsCI s "próxima",
    fun s => containsCI s "volgende",
    fun s => containsCI s "nästa",
    fun s => containsCI s "følgende",
    fun s => containsAnyOf s ["→", "›", "»", "⟩", "⇨", "➔", "➜", "➡"] ]

/-- `classIdPatterns`, in source order. -/
def classIdPatternTests : List (String → Bool) :=
  [ fun s => containsCI s "next",
    fun s => containsThenCI s "pagination" "next",
    fun s => containsThenCI s "nav" "next",
    fun s => containsCI s "forward",
    fun s => containsThenCI s "arrow" "right",
    fun s => containsThenCI s "chevron" "right" ]

/-- `relPatterns`. -/
def relPatternList : List String := ["next", "nofollow next"]

/-- `ariaPatterns`. -/
def ariaPatternTests : List (String → Bool) :=
  [ fun s => containsCI s "next",
    fun s => containsCI s "go to next",
    fun s => containsCI s "navigate to next" ]

/-- `infiniteScrollPatterns`. -/
def infiniteScrollPhrases : List String :=
  [ "load more", "show more", "see more", "view more",
    "cargar más", "charger plus", "mehr laden",
    "もっと見る", "더 보기", "加载更多" ]

/-- `paginationSelectors`, each as an element predicate, in source order. -/
def paginationSelTests : List (Elem → Bool) :=
  [ fun e => hasClass e "pagination",
    fun e => hasClass e "pager",
    fun e => hasClass e "page-navigation",
    fun e => hasClass e "nav-links",
    fun e => e.data.roleAttr == some "navigation",
    fun e => e.data.tag == "nav",
    fun e => hasClass e "paginator",
    fun e => hasClass e "page-numbers",
    fun e => hasClass e "wp-pagenavi",
    fun e => hasClass e "pagination-wrapper" ]

/-! ### The candidate record and the six matchers -/

/-- `NextPageCandidate`: the object literal a matcher returns.  Fields the source
leaves `undefined` default to their falsy value; `confidence` is in hundredths. -/
structure NextPageInfo where
  element : Option Elem := none
  url : Option String := none
  type : String := ""
  confidence : Nat := 0
  clickOnly : Bool := false
  isLoadMore : Bool := false

/-- `findByRelAttribute`: for each rel value in order, the *first* element of the
document matching `a[rel=v], link[rel=v]` is fetched; it becomes the candidate
only if it passes the validity gate, otherwise the loop moves to the next rel
value (not to the next matching element). -/
def findByRelAttribute (d : Doc) : Option NextPageInfo :=
  relPatternList.findSome? fun rv =>
    match querySelector d (relSelPred rv) with
    | some link =>
      if isValidNextPageElement link then
        some { element := some link, url := link.data.href, type := "rel-attribute",
               confidence := 100 }
      else none
    | none => none

/-- `findByTextContent`: clickables in document order; for each, the text patterns
in order; a pattern hit produces the candidate only if the element is valid,
otherwise the scan continues. -/
def findByTextContent (d : Doc) : Option NextPageInfo :=
  (clickables d).findSome? fun link =>
    let text := getElementText link
    textPatternTests.findSome? fun pat =>
      if pat text then
        let url := getElementUrl link
        if isValidNextPageElement link then
          some { element := some link, url := url, type := "text-content",
                 confidence := 90, clickOnly := url.isNone }
        else none
      else none

/-- The `className + " " + id` string the class/id matcher tests. -/
def classIdOf (e : Elem) : String := e.data.className ++ " " ++ e.data.idAttr

/-- Body of `findByClassId`'s outer loop: scan all clickables against one pattern. -/
def classIdScan (d : Doc) (pat : String → Bool) : Option NextPageInfo :=
  (clickables d).findSome? fun element =>
    if pat (classIdOf element) then
      let url := getElementUrl element
      if isValidNextPageElement element then
        some { element := some element, url := url, type := "class-id",
               confidence := 80, clickOnly := url.isNone }
      else none
    else none

/-- `findByClassId`: *patterns* in the outer loop, elements in the inner loop, so
pattern priority beats document order. -/
def findByClassId (d : Doc) : Option NextPageInfo :=
  classIdPatternTests.findSome? (classIdScan d)

/-- `findByAriaLabel`: elements with `aria-label`/`aria-labelledby`; a truthy
`aria-labelledby` appends the referenced element's `textContent` to the label. -/
def findByAriaLabel (d : Doc) : Option NextPageInfo :=
  (ariaElems d).findSome? fun element =>
    let ariaLabel := optAttr element.data.ariaLabel
    let labelText :=
      match jsTruthyStr element.data.ariaLabelledBy with
      | some idRef =>
        ariaLabel ++ " "
          ++ (match getElementById d idRef with
              | some le => le.data.textContent
              | none => "")
      | none => ariaLabel
    ariaPatternTests.findSome? fun pat =>
      if pat labelText then
        let url := getElementUrl element
        if isValidNextPageElement element then
          some { element := some element, url := url, type := "aria-label",
                 confidence := 85, clickOnly := url.isNone }
        else none
      else none

/-- The "current page" test of the numbered-pagination matcher. -/
def isCurrentLink (link : Elem) : Bool :=
  hasClass link "current" || hasClass link "active"
    || link.data.ariaCurrent == some "page" || link.data.disabledAttr.isSome

/-- `/^\d+$/.test(t) || /next|›|→|»/i.test(t)` — the acceptance test on the text
of the link after the current one. -/
def numberedNextTextOk (t : String) : Bool :=
  (!t.data.isEmpty && t.data.all Char.isDigit)
    || containsCI t "next" || containsAnyOf t ["›", "→", "»"]

/-- Body of `findNumberedPagination`'s loop for one container selector: when a
container exists, find the current link among its `a[href]` descendants; when it
is not the last link and the following link's text passes the acceptance test,
that link is the candidate.  NOTE the source applies no validity gate here. -/
def numberedAttempt (d : Doc) (sel : Elem → Bool) : Option NextPageInfo :=
  match querySelector d sel with
  | none => none
  | some container =>
    let links := queryAllWithin container isAnchorWithHref
    match links.findIdx? isCurrentLink with
    | none => none
    | some i =>
      if i < links.length - 1 then
        match links[i+1]? with
        | some nextLink =>
          if numberedNextTextOk (getElementText nextLink) then
            some { element := some nextLink, url := nextLink.data.href,
                   type := "numbered-pagination", confidence := 95 }
          else none
        | none => none
      else none

/-- `findNumberedPagination`: the selector loop; a selector whose container is
missing — or whose container yields no candidate — falls through to the next
selector. -/
def findNumberedPagination (d : Doc) : Option NextPageInfo :=
  paginationSelTests.findSome? (numberedAttempt d)

/-- `findInfiniteScrollButton`: buttons/anchors/`role=button` in document order;
lowercased extracted text tested for each load-more phrase (lowercased) as a
substring; the first hit is the candidate, `url` falling back to the current
location.  NOTE the source applies no validity gate here. -/
def findInfiniteScrollButton (d : Doc) : Option NextPageInfo :=
  (infScrollElems d).findSome? fun button =>
    let text := lowerChars (getElementText button).data
    infiniteScrollPhrases.findSome? fun pat =>
      if isInfixL (lowerChars pat.data) text then
        let url := getElementUrl button
        some { element := some button, url := some (url.getD d.locationHref),
               type := "infinite-scroll", confidence := 70, isLoadMore := true }
      else none

/-- `findNextPage`: the ordered closure list of the six matchers; the first
non-null result wins and later closures are not consulted. -/
def findNextPage (d : Doc) : Option NextPageInfo :=
  [ fun (_ : Unit) => findByRelAttribute d,
    fun _ => findByTextContent d,
    fun _ => findByClassId d,
    fun _ => findByAriaLabel d,
    fun _ => findNumberedPagination d,
    fun _ => findInfiniteScrollButton d ].findSome? (fun m => m ())

/-! ### Traversal controller (`navigateToNextPage`) -/

/-- The observable side effects of `navigateToNextPage`, in dispatch order.
`waitContent r` records an awaited `waitForNewContent()` call that resolved `r`. -/
inductive NavAction where
  | click (e : Elem)
  | navigate (url : String)
  | waitContent (result : Bool)

/-- Environment for the controller: which click dispatches and which location
assignments throw (the `try` block catches them), and the value the content wait
would resolve to. -/
structure NavEnv where
  clickThrows : Elem → Bool
  navThrows : String → Bool
  waitResult : Bool

/-- `navigateToNextPage`: absent candidate or element ⇒ `false` with no effects;
load-more ⇒ click, await the wait, `return true` (the awaited value is
discarded by the source); truthy `url` ⇒ assign `location.href`, `return true`;
otherwise (click-only) ⇒ click, await the wait, `return true`.  A throw inside
the `try` block is caught, logged and turned into `false`. -/
def navigateToNextPage (env : NavEnv) (info : Option NextPageInfo) : Bool × List NavAction :=
  match info with
  | none => (false, [])
  | some i =>
    match i.element with
    | none => (false, [])
    | some element =>
      if i.isLoadMore then
        if env.clickThrows element then (false, [NavAction.click element])
        else (true, [NavAction.click element, NavAction.waitContent env.waitResult])
      else
        match jsTruthyStr i.url with
        | some u =>
          if env.navThrows u then (false, [NavAction.navigate u])
          else (true, [NavAction.navigate u])
        | none =>
          if env.clickThrows element then (false, [NavAction.click element])
          else (true, [NavAction.click element, NavAction.waitContent env.waitResult])

/-! ### Content wait (`waitForNewContent`) -/

/-- One poll of the `setInterval` loop at tick `k` (elapsed `100*k` ms, height
`heightAt k`): resolve `true` on strict growth over `h0`, else resolve `false`
once `maxWait ≤` elapsed, else keep polling.  `fuel` only bounds the recursion;
the entry point passes `fuel = maxWait`, which exceeds the number of polls the
timeout allows, so the fuel-exhaustion branch is unreachable (its guard
`maxWait ≤ 100 * (k + fuel)` is maintained by `waitPoll_spec`). -/
def waitPoll (h0 : Nat) (heightAt : Nat → Nat) (maxWait : Nat) : Nat → Nat → Bool × Nat
  | k, fuel =>
    if h0 < heightAt k then (true, k)
    else if maxWait ≤ 100 * k then (false, k)
    else
      match fuel with
      | 0 => (false, k)
      | fuel + 1 => waitPoll h0 heightAt maxWait (k + 1) fuel

/-- `waitForNewContent(maxWait = 5000)` over an idealized height trace:
`heightAt 0` is `document.body.scrollHeight` recorded at entry, `heightAt k` the
height observed by the poll at elapsed `100*k` ms.  Returns the resolved boolean
and the tick at which it resolved. -/
def waitForNewContent (heightAt : Nat → Nat) (maxWait : Nat := 5000) : Bool × Nat :=
  waitPoll (heightAt 0) heightAt maxWait 1 maxWait

/-! ### State inspector (`getPaginationInfo`) -/

/-- `PaginationState`. -/
structure PaginationInfo where
  currentPage : Int := 1
  totalPages : Option Int := none
  hasNext : Bool := false
  hasPrevious : Bool := false
  deriving Repr, DecidableEq

/-- CSS `.current, .active, [aria-current="page"]`. -/
def currentPageSel (e : Elem) : Bool :=
  hasClass e "current" || hasClass e "active" || e.data.ariaCurrent == some "page"

/-- Container part of `.pagination a, .pager a, .page-numbers a`. -/
def totalPagesContainerSel (e : Elem) : Bool :=
  hasClass e "pagination" || hasClass e "pager" || hasClass e "page-numbers"

/-- CSS `a` (bare tag selector). -/
def isAnchor (e : Elem) : Bool := e.data.tag == "a"

/-- CSS `a[rel="prev"], .prev, .previous`. -/
def prevSel (e : Elem) : Bool :=
  (e.data.tag == "a" && e.data.relAttr == some "prev")
    || hasClass e "prev" || hasClass e "previous"

/-- The page numbers parsed out of the link texts of
`.pagination a, .pager a, .page-numbers a`. -/
def pageNumbersOf (d : Doc) : List Int :=
  (queryDescOf d totalPagesContainerSel isAnchor).filterMap
    (fun l => jsParseInt (getElementText l))

/-- `getPaginationInfo`: current page from the first `.current`/`.active`/
`[aria-current="page"]` element (default 1), total pages as the max parsed link
number (null when none parse), `hasNext` by re-running the full cascade,
`hasPrevious` by existence of a previous control. -/
def getPaginationInfo (d : Doc) : PaginationInfo :=
  let currentPage : Int :=
    match querySelector d currentPageSel with
    | some el =>
      match jsParseInt (getElementText el) with
      | some n => n
      | none => 1
    | none => 1
  let totalPages : Option Int :=
    match pageNumbersOf d with
    | [] => none
    | n :: ns => some (ns.foldl max n)
  { currentPage := currentPage, totalPages := totalPages,
    hasNext := (findNextPage d).isSome,
    hasPrevious := (querySelector d prevSel).isSome }

/-! ### Concrete fixture documents -/

/-- A visible `<a rel="next" href="https://x/2">foo</a>`. -/
def fixRelA : Elem :=
  .node { tag := "a", relAttr := some "next", href := some "https://x/2",
          textContent := "foo" } []

/-- A visible `<a href="https://x/3">Next</a>`. -/
def fixTextA : Elem := .node { tag := "a", href := some "https://x/3", textContent := "Next" } []

/-- A visible `<a class="next" href="https://x/4"></a>`. -/
def fixClassA : Elem := .node { tag := "a", href := some "https://x/4", className := "next" } []

/-- Document satisfying the rel-attribute, text-content and class-id matchers at
once. -/
def docC1 : Doc := { roots := [fixRelA, fixTextA, fixClassA] }

/-- The rel-attribute candidate of `docC1`. -/
def relCandC1 : NextPageInfo :=
  { element := some fixRelA, url := some "https://x/2", type := "rel-attribute",
    confidence := 100 }

/-- A `display:none` `<button>Load More</button>`. -/
def hiddenLoadBtn : Elem :=
  .node { tag := "button", textContent := "Load More", display := "none" } []

/-- Document whose only pagination control is the hidden load-more button. -/
def docC2 : Doc := { roots := [hiddenLoadBtn], locationHref := "https://ex.com/list" }

/-- A visible `<button>Load More</button>`. -/
def lmBtn : Elem := .node { tag := "button", textContent := "Load More" } []

/-- A load-more candidate for `lmBtn`. -/
def lmCand : NextPageInfo :=
  { element := some lmBtn, url := some "https://ex.com/x", type := "infinite-scroll",
    confidence := 70, isLoadMore := true }

/-- Controller environment where nothing throws and the content wait resolves
`false` (no height growth). -/
def quietEnvF : NavEnv :=
  { clickThrows := fun _ => false, navThrows := fun _ => false, waitResult := false }

/-- Controller environment where every dispatch and navigation throws. -/
def throwEnv : NavEnv :=
  { clickThrows := fun _ => true, navThrows := fun _ => true, waitResult := true }

/-- A plain navigation candidate (non-load-more, with a url). -/
def navCand : NextPageInfo :=
  { element := some fixTextA, url := some "https://ex.com/2", type := "text-content",
    confidence := 90 }

/-- Height trace that grows at the second poll. -/
def growTrace : Nat → Nat := fun n => if 2 ≤ n then 110 else 100

/-- Height trace that never grows. -/
def flatTrace : Nat → Nat := fun _ => 100

/-- Anchor "9" with no current marker, inside the `.pagination` container. -/
def c6NoCur : Elem := .node { tag := "a", href := some "/p9", textContent := "9" } []

/-- A `.pagination` container without any current link. -/
def c6PagDiv : Elem := .node { tag := "div", className := "pagination" } [c6NoCur]

/-- Link "1" carrying class `current`, inside the `.pager` container. -/
def c6A1 : Elem :=
  .node { tag := "a", href := some "/p1", textContent := "1", className := "current" } []

/-- Link "2", inside the `.pager` container. -/
def c6A2 : Elem := .node { tag := "a", href := some "/p2", textContent := "2" } []

/-- A `.pager` container whose current link is "1". -/
def c6PagerDiv : Elem := .node { tag := "div", className := "pager" } [c6A1, c6A2]

/-- Document whose first existing pagination container (`.pagination`) yields no
candidate while the later `.pager` container does. -/
def docC6 : Doc := { roots := [c6PagDiv, c6PagerDiv] }

/-- Numbered links "1".."5" with class `current` on "3". -/
def c6bA1 : Elem := .node { tag := "a", href := some "/1", textContent := "1" } []

/-- Link "2" of the 1..5 fixture. -/
def c6bA2 : Elem := .node { tag := "a", href := some "/2", textContent := "2" } []

/-- Link "3" of the 1..5 fixture, the current page. -/
def c6bA3 : Elem :=
  .node { tag := "a", href := some "/3", textContent := "3", className := "current" } []

/-- Link "4" of the 1..5 fixture, the expected candidate. -/
def c6bA4 : Elem := .node { tag := "a", href := some "/4", textContent := "4" } []

/-- Link "5" of the 1..5 fixture. -/
def c6bA5 : Elem := .node { tag := "a", href := some "/5", textContent := "5" } []

/-- The `.pagination` container of the 1..5 fixture. -/
def c6bPag : Elem :=
  .node { tag := "div", className := "pagination" } [c6bA1, c6bA2, c6bA3, c6bA4, c6bA5]

/-- Document with links "1".."5" and `current` on "3". -/
def docC6b : Doc := { roots := [c6bPag] }

/-- A `visibility:hidden` `<a rel="next" href="https://x/h">`. -/
def c7Hidden : Elem :=
  .node { tag := "a", relAttr := some "next", href := some "https://x/h",
          visibility := "hidden" } []

/-- A visible `<a rel="next" href="https://x/v">`, later in document order. -/
def c7Visible : Elem := .node { tag := "a", relAttr := some "next", href := some "https://x/v" } []

/-- Document with a hidden `rel=next` anchor before a visible one. -/
def docC7 : Doc := { roots := [c7Hidden, c7Visible] }

/-- Link "1" of the inspect fixture. -/
def c8A1 : Elem := .node { tag := "a", href := some "/1", textContent := "1" } []

/-- Link "2" of the inspect fixture, the current page. -/
def c8A2 : Elem :=
  .node { tag := "a", href := some "/2", textContent := "2", className := "current" } []

/-- Link "3" of the inspect fixture. -/
def c8A3 : Elem := .node { tag := "a", href := some "/3", textContent := "3" } []

/-- The `.pagination` block of the inspect fixture. -/
def c8Pag : Elem := .node { tag := "div", className := "pagination" } [c8A1, c8A2, c8A3]

/-- Document for the inspect example: `.pagination` with "1","2","3", current "2". -/
def docC8 : Doc := { roots := [c8Pag] }

/-- A lone visible `<button>Load More</button>` with no href. -/
def c9Btn : Elem := .node { tag := "button", textContent := "Load More" } []

/-- Document containing only the load-more button. -/
def docC9 : Doc := { roots := [c9Btn], locationHref := "https://ex.com/feed" }

/-- An earlier-in-document anchor matching only the `/forward/i` pattern. -/
def c10Fwd : Elem := .node { tag := "a", href := some "/fw", className := "forward" } []

/-- A later-in-document anchor matching the `/next/i` pattern. -/
def c10Next : Elem := .node { tag := "a", href := some "/nx", className := "next" } []

/-- Document where document order and pattern priority disagree. -/
def docC10 : Doc := { roots := [c10Fwd, c10Next] }

/-! ### Generic lemmas about the first-success scan `List.findSome?` -/

theorem findSome?_cons_some {α β : Type} {f : α → Option β} {a : α} {b : β}
    (h : f a = some b) (l : List α) : (a :: l).findSome? f = some b := by
  simp [List.findSome?, h]

theorem findSome?_cons_none {α β : Type} {f : α → Option β} {a : α}
    (h : f a = none) (l : List α) : (a :: l).findSome? f = l.findSome? f := by
  simp [List.findSome?, h]

theorem findSome?_append_none {α β : Type} {f : α → Option β} :
    ∀ {l1 : List α} (l2 : List α), (∀ a ∈ l1, f a = none) →
      (l1 ++ l2).findSome? f = l2.findSome? f := by
  intro l1
  induction l1 with
  | nil => intro l2 _ ; rfl
  | cons a t ih =>
    intro l2 h
    have ha : f a = none := h a (List.mem_cons_self a t)
    rw [List.cons_append, findSome?_cons_none ha, ih l2 (fun x hx => h x (List.mem_cons_of_mem a hx))]

theorem exists_of_findSome?_eq_some {α β : Type} {f : α → Option β} :
    ∀ {l : List α} {b : β}, l.findSome? f = some b → ∃ a ∈ l, f a = some b := by
  intro l
  induction l with
  | nil => intro b h ; simp [List.findSome?] at h
  | cons a t ih =>
    intro b h
    cases hfa : f a with
    | some c =>
      rw [findSome?_cons_some hfa] at h
      exact ⟨a, List.mem_cons_self a t, by rw [hfa, h]⟩
    | none =>
      rw [findSome?_cons_none hfa] at h
      obtain ⟨x, hx, hfx⟩ := ih h
      exact ⟨x, List.mem_cons_of_mem a hx, hfx⟩

theorem findSome?_isSome_of_mem {α β : Type} {f : α → Option β} :
    ∀ {l : List α} {a : α}, a ∈ l → (f a).isSome = true → (l.findSome? f).isSome = true := by
  intro l
  induction l with
  | nil => intro a ha _ ; cases ha
  | cons x t ih =>
    intro a ha hf
    cases hfx : f x with
    | some c => rw [findSome?_cons_some hfx] ; rfl
    | none =>
      rw [findSome?_cons_none hfx]
      cases ha with
      | head => rw [hfx] at hf ; cases hf
      | tail _ ht => exact ih ht hf

theorem findSome?_eq_none_of {α β : Type} {f : α → Option β} :
    ∀ {l : List α}, (∀ a ∈ l, f a = none) → l.findSome? f = none := by
  intro l
  induction l with
  | nil => intro _ ; rfl
  | cons a t ih =>
    intro h
    rw [findSome?_cons_none (h a (List.mem_cons_self a t))]
    exact ih (fun x hx => h x (List.mem_cons_of_mem a hx))

theorem findSome?_const_some {α β : Type} {t : α → Bool} {c0 : β} :
    ∀ {l : List α}, l.any t = true →
      l.findSome? (fun a => if t a then some c0 else none) = some c0 := by
  intro l
  induction l with
  | nil => intro h ; cases h
  | cons a tl ih =>
    intro h
    by_cases hta : t a = true
    · exact findSome?_cons_some (by simp [hta]) tl
    · rw [findSome?_cons_none (by simp [hta])]
      simp only [List.any_cons, Bool.or_eq_true] at h
      exact ih (h.resolve_left hta)

theorem findSome?_const_none {α β : Type} {t : α → Bool} {c0 : β} :
    ∀ {l : List α}, l.any t = false →
      l.findSome? (fun a => if t a then some c0 else none) = none := by
  intro l h
  refine findSome?_eq_none_of (fun a ha => ?_)
  have : t a = false := by
    by_contra hc
    have : t a = true := by revert hc ; cases t a <;> simp
    have := List.any_eq_true.mpr ⟨a, ha, this⟩
    rw [h] at this ; cases this
  simp [this]

/-! ### Lemmas about the left fold with `max` (JS `Math.max(...nums)`) -/

theorem foldlMax_init_le (n : Int) : ∀ (ns : List Int), n ≤ ns.foldl max n := by
  intro ns
  induction ns generalizing n with
  | nil => exact le_refl n
  | cons m t ih => exact le_trans (le_max_left n m) (ih (max n m))

theorem foldlMax_mem (n : Int) : ∀ (ns : List Int), ns.foldl max n ∈ n :: ns := by
  intro ns
  induction ns generalizing n with
  | nil => exact List.mem_singleton.mpr rfl
  | cons m t ih =>
    have h := ih (max n m)
    rcases List.mem_cons.mp h with h1 | h1
    · rcases max_choice n m with hm | hm
      · exact List.mem_cons.mpr (Or.inl (by rw [List.foldl_cons, h1, hm]))
      · refine List.mem_cons.mpr (Or.inr (List.mem_cons.mpr (Or.inl ?_)))
        rw [List.foldl_cons, h1, hm]
    · exact List.mem_cons.mpr (Or.inr (List.mem_cons.mpr (Or.inr (by rw [List.foldl_cons] ; exact h1))))

theorem le_foldlMax (n : Int) : ∀ (ns : List Int) (x : Int), x ∈ n :: ns → x ≤ ns.foldl max n := by
  intro ns
  induction ns generalizing n with
  | nil =>
    intro x hx
    rcases List.mem_cons.mp hx with h | h
    · exact le_of_eq h
    · cases h
  | cons m t ih =>
    intro x hx
    rw [List.foldl_cons]
    rcases List.mem_cons.mp hx with h | h
    · exact le_trans (le_of_eq h) (le_trans (le_max_left n m) (foldlMax_init_le _ t))
    · rcases List.mem_cons.mp h with h1 | h1
      · exact le_trans (le_of_eq h1) (le_trans (le_max_right n m) (foldlMax_init_le _ t))
      · exact ih (max n m) x (List.mem_cons.mpr (Or.inr h1))

/-! ### Behaviour of the polling loop -/

theorem waitPoll_spec (h0 : Nat) (f : Nat → Nat) (maxWait : Nat) :
    ∀ (fuel k : Nat) (b : Bool) (kr : Nat), maxWait ≤ 100 * (k + fuel) →
      waitPoll h0 f maxWait k fuel = (b, kr) →
      k ≤ kr ∧ (∀ j, k ≤ j → j < kr → f j ≤ h0 ∧ 100 * j < maxWait) ∧
        (b = true → h0 < f kr) ∧ (b = false → f kr ≤ h0 ∧ maxWait ≤ 100 * kr) := by
  intro fuel
  induction fuel with
  | zero =>
    intro k b kr hb h
    unfold waitPoll at h
    by_cases hg : h0 < f k
    · rw [if_pos hg] at h
      obtain ⟨hb', hk'⟩ := Prod.mk.injEq .. ▸ h
      subst hb' ; subst hk'
      refine ⟨le_refl k, fun j hj1 hj2 => absurd (lt_of_le_of_lt hj1 hj2) (lt_irrefl k),
        fun _ => hg, fun hf => Bool.noConfusion hf⟩
    · rw [if_neg hg] at h
      have htime : maxWait ≤ 100 * k := by omega
      rw [if_pos htime] at h
      obtain ⟨hb', hk'⟩ := Prod.mk.injEq .. ▸ h
      subst hb' ; subst hk'
      refine ⟨le_refl k, fun j hj1 hj2 => absurd (lt_of_le_of_lt hj1 hj2) (lt_irrefl k),
        fun hf => Bool.noConfusion hf, fun _ => ⟨le_of_not_lt hg, htime⟩⟩
  | succ n ih =>
    intro k b kr hb h
    unfold waitPoll at h
    by_cases hg : h0 < f k
    · rw [if_pos hg] at h
      obtain ⟨hb', hk'⟩ := Prod.mk.injEq .. ▸ h
      subst hb' ; subst hk'
      refine ⟨le_refl k, fun j hj1 hj2 => absurd (lt_of_le_of_lt hj1 hj2) (lt_irrefl k),
        fun _ => hg, fun hf => Bool.noConfusion hf⟩
    · rw [if_neg hg] at h
      by_cases htime : maxWait ≤ 100 * k
      · rw [if_pos htime] at h
        obtain ⟨hb', hk'⟩ := Prod.mk.injEq .. ▸ h
        subst hb' ; subst hk'
        refine ⟨le_refl k, fun j hj1 hj2 => absurd (lt_of_le_of_lt hj1 hj2) (lt_irrefl k),
          fun hf => Bool.noConfusion hf, fun _ => ⟨le_of_not_lt hg, htime⟩⟩
      · rw [if_neg htime] at h
        have hb' : maxWait ≤ 100 * ((k + 1) + n) := by omega
        obtain ⟨hk1, hmid, htrue, hfalse⟩ := ih (k + 1) b kr hb' h
        refine ⟨le_trans (Nat.le_succ k) hk1, ?_, htrue, hfalse⟩
        intro j hj1 hj2
        rcases Nat.eq_or_lt_of_le hj1 with hjk | hjk
        · subst hjk
          exact ⟨le_of_not_lt hg, lt_of_not_le htime⟩
        · exact hmid j hjk hj2

/-! ### Claim theorems -/

/-- C5: `waitForNewContent` (default `maxWaitMs = 5000`) records the body height
at entry (`heightAt 0`), polls at ticks of 100 ms, resolves `true` at the first
poll whose observed height strictly exceeds the initial height (all earlier polls
saw no growth and happened before the timeout), and, when the height never
exceeds the initial value, resolves `false` only once the elapsed time
`100 * k` has reached the full `maxWait` — never earlier merely because the
height is unchanged. -/
theorem waitForNewContent_bounded_poll (heightAt : Nat → Nat) (maxWait : Nat) (b : Bool) (k : Nat)
    (h : waitForNewContent heightAt maxWait = (b, k)) :
    1 ≤ k ∧
    (b = true → heightAt 0 < heightAt k ∧
      ∀ j, 1 ≤ j → j < k → heightAt j ≤ heightAt 0 ∧ 100 * j < maxWait) ∧
    (b = false → heightAt k ≤ heightAt 0 ∧ maxWait ≤ 100 * k ∧
      ∀ j, 1 ≤ j → j < k → heightAt j ≤ heightAt 0 ∧ 100 * j < maxWait) := by
  unfold waitForNewContent at h
  have hb : maxWait ≤ 100 * (1 + maxWait) := by omega
  obtain ⟨hk1, hmid, htrue, hfalse⟩ := waitPoll_spec (heightAt 0) heightAt maxWait maxWait 1 b k hb h
  exact ⟨hk1, fun ht => ⟨htrue ht, fun j hj1 hj2 => hmid j hj1 hj2⟩,
    fun hf => ⟨(hfalse hf).1, (hfalse hf).2, fun j hj1 hj2 => hmid j hj1 hj2⟩⟩

/-- Witness for C5: on the trace that grows at the second poll (with
`maxWait = 300`) the wait resolves `(true, 2)` and the theorem yields the strict
growth; on the flat trace it resolves `(false, 3)` and the theorem yields that
the full 300 ms elapsed. -/
theorem waitForNewContent_bounded_poll_witness :
    growTrace 0 < growTrace 2 ∧ 300 ≤ 100 * 3 :=
  ⟨((waitForNewContent_bounded_poll growTrace 300 true 2 rfl).2.1 rfl).1,
   ((waitForNewContent_bounded_poll flatTrace 300 false 3 rfl).2.2 rfl).2.1⟩

/-- C1: `findNextPage` evaluates the six matchers in the fixed order
rel-attribute, text-content, class/id, aria-label, numbered pagination, infinite
scroll, returning the first non-null result (hence at most one candidate — an
`Option` — per call); later matchers cannot influence the result once an earlier
one succeeds, and on `docC1`, where the rel-attribute, text-content and class-id
matchers all succeed, the result is the rel-attribute candidate. -/
theorem findNextPage_cascade_priority :
    (∀ d c, findByRelAttribute d = some c → findNextPage d = some c) ∧
    (∀ d c, findByRelAttribute d = none → findByTextContent d = some c →
      findNextPage d = some c) ∧
    (∀ d c, findByRelAttribute d = none → findByTextContent d = none →
      findByClassId d = some c → findNextPage d = some c) ∧
    (∀ d c, findByRelAttribute d = none → findByTextContent d = none →
      findByClassId d = none → findByAriaLabel d = some c → findNextPage d = some c) ∧
    (∀ d c, findByRelAttribute d = none → findByTextContent d = none →
      findByClassId d = none → findByAriaLabel d = none →
      findNumberedPagination d = some c → findNextPage d = some c) ∧
    (∀ d c, findByRelAttribute d = none → findByTextContent d = none →
      findByClassId d = none → findByAriaLabel d = none → findNumberedPagination d = none →
      findInfiniteScrollButton d = some c → findNextPage d = some c) ∧
    (∀ d, findByRelAttribute d = none → findByTextContent d = none →
      findByClassId d = none → findByAriaLabel d = none → findNumberedPagination d = none →
      findInfiniteScrollButton d = none → findNextPage d = none) ∧
    (findByRelAttribute docC1 = some relCandC1 ∧ (findByTextContent docC1).isSome = true ∧
      (findByClassId docC1).isSome = true ∧ findNextPage docC1 = some relCandC1) := by
  refine ⟨?_, ?_, ?_, ?_, ?_, ?_, ?_, rfl, rfl, rfl, rfl⟩
  · intro d c h1
    simp [findNextPage, List.findSome?, h1]
  · intro d c h1 h2
    simp [findNextPage, List.findSome?, h1, h2]
  · intro d c h1 h2 h3
    simp [findNextPage, List.findSome?, h1, h2, h3]
  · intro d c h1 h2 h3 h4
    simp [findNextPage, List.findSome?, h1, h2, h3, h4]
  · intro d c h1 h2 h3 h4 h5
    simp [findNextPage, List.findSome?, h1, h2, h3, h4, h5]
  · intro d c h1 h2 h3 h4 h5 h6
    simp [findNextPage, List.findSome?, h1, h2, h3, h4, h5, h6]
  · intro d h1 h2 h3 h4 h5 h6
    simp [findNextPage, List.findSome?, h1, h2, h3, h4, h5, h6]

/-- Witness for C1 at the fixture satisfying three matchers at once. -/
theorem findNextPage_cascade_priority_witness : findNextPage docC1 = some relCandC1 :=
  findNextPage_cascade_priority.1 docC1 relCandC1 rfl

/-- C2 is false on the code: on `docC2` the cascade returns the infinite-scroll
candidate whose element is the `display:none` load-more button, and that element
fails `isValidNextPageElement` — `findInfiniteScrollButton` (like
`findNumberedPagination`) never invokes the validity gate. -/
theorem locate_invalid_element_counterexample :
    findNextPage docC2 =
      some { element := some hiddenLoadBtn, url := some "https://ex.com/list",
             type := "infinite-scroll", confidence := 70, isLoadMore := true } ∧
    isValidNextPageElement hiddenLoadBtn = false :=
  ⟨rfl, rfl⟩

/-- C2 (amended): only the first four matchers (rel-attribute, text-content,
class/id, aria-label) validate an element before accepting it: any candidate one
of them returns carries an element passing the gate.  The numbered-pagination
and infinite-scroll matchers accept candidates without validating, so `locate()`
can return a candidate whose element fails the gate. -/
theorem first_four_matchers_validate (d : Doc) (c : NextPageInfo)
    (h : findByRelAttribute d = some c ∨ findByTextContent d = some c ∨
         findByClassId d = some c ∨ findByAriaLabel d = some c) :
    ∃ e, c.element = some e ∧ isValidNextPageElement e = true := by
  rcases h with h | h | h | h
  · unfold findByRelAttribute at h
    obtain ⟨rv, _, hrv⟩ := exists_of_findSome?_eq_some h
    cases hq : querySelector d (relSelPred rv) with
    | none => rw [hq] at hrv ; exact absurd hrv (by simp)
    | some link =>
      rw [hq] at hrv
      dsimp only at hrv
      by_cases hv : isValidNextPageElement link = true
      · rw [if_pos hv] at hrv
        obtain rfl := Option.some.inj hrv
        exact ⟨link, rfl, hv⟩
      · rw [if_neg hv] at hrv ; cases hrv
  · unfold findByTextContent at h
    obtain ⟨link, _, hl⟩ := exists_of_findSome?_eq_some h
    dsimp only at hl
    obtain ⟨pat, _, hp⟩ := exists_of_findSome?_eq_some hl
    split at hp
    · by_cases hv : isValidNextPageElement link = true
      · simp only [hv, if_true] at hp
        obtain rfl := Option.some.inj hp
        exact ⟨link, rfl, hv⟩
      · simp [hv] at hp
    · cases hp
  · unfold findByClassId at h
    obtain ⟨pat, _, hpat⟩ := exists_of_findSome?_eq_some h
    unfold classIdScan at hpat
    obtain ⟨element, _, hp⟩ := exists_of_findSome?_eq_some hpat
    split at hp
    · by_cases hv : isValidNextPageElement element = true
      · simp only [hv, if_true] at hp
        obtain rfl := Option.some.inj hp
        exact ⟨element, rfl, hv⟩
      · simp [hv] at hp
    · cases hp
  · unfold findByAriaLabel at h
    obtain ⟨element, _, hl⟩ := exists_of_findSome?_eq_some h
    dsimp only at hl
    obtain ⟨pat, _, hp⟩ := exists_of_findSome?_eq_some hl
    split at hp
    · by_cases hv : isValidNextPageElement element = true
      · simp only [hv, if_true] at hp
        obtain rfl := Option.some.inj hp
        exact ⟨element, rfl, hv⟩
      · simp [hv] at hp
    · cases hp

/-- Witness for the amended C2 at the rel-attribute candidate of `docC1`. -/
theorem first_four_matchers_validate_witness :
    ∃ e, relCandC1.element = some e ∧ isValidNextPageElement e = true :=
  first_four_matchers_validate docC1 relCandC1 (Or.inl rfl)

/-- C3 is false on the code: with the content wait resolving `false` (no height
growth before the timeout), `navigateToNextPage` on a load-more candidate still
returns `true` — the source awaits `waitForNewContent()` but discards its value
and unconditionally returns `true`. -/
theorem advance_ignores_wait_outcome_counterexample :
    quietEnvF.waitResult = false ∧
    navigateToNextPage quietEnvF (some lmCand) =
      (true, [NavAction.click lmBtn, NavAction.waitContent false]) :=
  ⟨rfl, rfl⟩

/-- C3 (amended): for a load-more candidate, and for a click-only candidate
(element present, no truthy url), `advance` dispatches a click on the element and
then awaits content materialization, but returns `true` regardless of the wait's
outcome; these paths return `false` only when the click dispatch throws. -/
theorem advance_click_paths_return_true (env : NavEnv) (c : NextPageInfo) (e : Elem)
    (hel : c.element = some e) (hnc : env.clickThrows e = false)
    (hbr : c.isLoadMore = true ∨ (c.isLoadMore = false ∧ jsTruthyStr c.url = none)) :
    navigateToNextPage env (some c) =
      (true, [NavAction.click e, NavAction.waitContent env.waitResult]) := by
  rcases hbr with hlm | ⟨hlm, hurl⟩
  · simp [navigateToNextPage, hel, hlm, hnc]
  · simp [navigateToNextPage, hel, hlm, hurl, hnc]

/-- Witness for the amended C3. -/
theorem advance_click_paths_return_true_witness :
    navigateToNextPage quietEnvF (some lmCand) =
      (true, [NavAction.click lmBtn, NavAction.waitContent quietEnvF.waitResult]) :=
  advance_click_paths_return_true quietEnvF lmCand lmBtn rfl rfl (Or.inl rfl)

/-- C4: `advance` returns `false` with no side effect when the candidate or its
element is absent; for a non-load-more candidate with a truthy url it performs
the location assignment and returns `true` with no content wait (the action list
contains no `waitContent`), `false` when that assignment throws; and a throw
during click dispatch is caught and converted to `false`.  The embedding is a
total function, so no exception ever propagates to the caller. -/
theorem advance_guards_and_navigation :
    (∀ env, navigateToNextPage env none = (false, [])) ∧
    (∀ env c, c.element = none → navigateToNextPage env (some c) = (false, [])) ∧
    (∀ env c e u, c.element = some e → c.isLoadMore = false → jsTruthyStr c.url = some u →
      navigateToNextPage env (some c) =
        (if env.navThrows u then false else true, [NavAction.navigate u])) ∧
    (∀ env c e, c.element = some e → env.clickThrows e = true →
      (c.isLoadMore = true ∨ jsTruthyStr c.url = none) →
      navigateToNextPage env (some c) = (false, [NavAction.click e])) := by
  refine ⟨fun env => rfl, ?_, ?_, ?_⟩
  · intro env c hc
    simp [navigateToNextPage, hc]
  · intro env c e u he hlm hu
    by_cases ht : env.navThrows u = true <;> simp [navigateToNextPage, he, hlm, hu, ht]
  · intro env c e he hct hbr
    rcases hbr with h | h
    · simp [navigateToNextPage, he, h, hct]
    · by_cases hlm : c.isLoadMore = true
      · simp [navigateToNextPage, he, hlm, hct]
      · simp [navigateToNextPage, he, hlm, h, hct]

/-- Witness for C4: the guard, the terminal navigation (on a non-throwing
environment `if` reduces to `true`) and the caught click throw. -/
theorem advance_guards_and_navigation_witness :
    navigateToNextPage quietEnvF none = (false, []) ∧
    navigateToNextPage quietEnvF (some navCand) =
      (if quietEnvF.navThrows "https://ex.com/2" then false else true,
       [NavAction.navigate "https://ex.com/2"]) ∧
    navigateToNextPage throwEnv (some lmCand) = (false, [NavAction.click lmBtn]) :=
  ⟨advance_guards_and_navigation.1 quietEnvF,
   advance_guards_and_navigation.2.2.1 quietEnvF navCand fixTextA "https://ex.com/2" rfl rfl rfl,
   advance_guards_and_navigation.2.2.2 throwEnv lmCand lmBtn rfl rfl (Or.inl rfl)⟩

/-- C6 is false on the code: on `docC6` the first existing pagination container
(the `.pagination` div, matched by the first selector of the list) has no
current link and yields nothing, yet `findNumberedPagination` does not stop
there — it continues with the later selectors and returns the candidate from
the `.pager` container. -/
theorem numbered_pagination_first_container_counterexample :
    querySelector docC6 (fun e => hasClass e "pagination") = some c6PagDiv ∧
    (queryAllWithin c6PagDiv isAnchorWithHref).findIdx? isCurrentLink = none ∧
    findNumberedPagination docC6 =
      some { element := some c6A2, url := some "/p2", type := "numbered-pagination",
             confidence := 95 } :=
  ⟨rfl, rfl, rfl⟩

/-- C6 (amended): `findNumberedPagination` iterates the ten container selectors
in order and returns the first candidate produced by any of them — an existing
container that yields no candidate does not stop the scan.  Within one
container's attempt, when the current link sits at index `i` and is not last,
the link at `i+1` is the candidate exactly when its text is all digits or
contains a next-like token; on links "1".."5" with class `current` on "3" the
"4" link is returned with type `numbered-pagination`. -/
theorem numbered_pagination_selector_scan :
    (findNumberedPagination docC6b =
      some { element := some c6bA4, url := some "/4", type := "numbered-pagination",
             confidence := 95 }) ∧
    (∀ d (l1 : List (Elem → Bool)) sel l2 c, paginationSelTests = l1 ++ sel :: l2 →
      (∀ s ∈ l1, numberedAttempt d s = none) → numberedAttempt d sel = some c →
      findNumberedPagination d = some c) ∧
    (∀ d sel container i nl, querySelector d sel = some container →
      (queryAllWithin container isAnchorWithHref).findIdx? isCurrentLink = some i →
      i < (queryAllWithin container isAnchorWithHref).length - 1 →
      (queryAllWithin container isAnchorWithHref)[i+1]? = some nl →
      numberedAttempt d sel =
        (if numberedNextTextOk (getElementText nl) then
          some { element := some nl, url := nl.data.href,
                 type := "numbered-pagination", confidence := 95 }
        else none)) := by
  refine ⟨rfl, ?_, ?_⟩
  · intro d l1 sel l2 c hsplit hnone hsel
    unfold findNumberedPagination
    rw [hsplit, findSome?_append_none (sel :: l2) hnone]
    exact findSome?_cons_some hsel l2
  · intro d sel container i nl hq hidx hlen hnl
    unfold numberedAttempt
    rw [hq]
    dsimp only
    rw [hidx]
    dsimp only
    rw [if_pos hlen, hnl]

/-- Witness for the amended C6 at the 1..5 fixture, through the selector-scan
conjunct with an empty skipped prefix. -/
theorem numbered_pagination_selector_scan_witness :
    findNumberedPagination docC6b =
      some { element := some c6bA4, url := some "/4", type := "numbered-pagination",
             confidence := 95 } :=
  numbered_pagination_selector_scan.2.1 docC6b [] (fun e => hasClass e "pagination")
    (paginationSelTests.drop 1) _ rfl (fun s hs => absurd hs (List.not_mem_nil s)) rfl

/-- C7 is false on the code: the rel-attribute matcher inspects only the first
rel-matching element per rel value (a single `querySelector`), so on `docC7` —
where the first `rel="next"` anchor is `visibility:hidden` and a later one is
visible and valid — it gives up without scanning the remaining elements, and
the whole cascade returns none instead of the later valid anchor. -/
theorem rel_matcher_stops_at_first_counterexample :
    allElems docC7 = [c7Hidden, c7Visible] ∧
    relSelPred "next" c7Visible = true ∧
    isValidNextPageElement c7Visible = true ∧
    findByRelAttribute docC7 = none ∧
    findNextPage docC7 = none :=
  ⟨rfl, rfl, rfl, rfl, rfl⟩

/-- C7 (amended): the text-content and class/id matchers do keep scanning past
validity-rejected elements — a matching valid element anywhere in the clickable
universe guarantees a candidate; a hidden `rel="next"` anchor is rejected by the
gate with the cascade falling through; but the rel-attribute matcher examines
only the document's first matching element per rel value, so it returns none
whenever each rel value's first match is invalid, even when later matching
valid elements exist. -/
theorem validation_rejection_scanning :
    (∀ d e, e ∈ clickables d →
      textPatternTests.any (fun p => p (getElementText e)) = true →
      isValidNextPageElement e = true → (findByTextContent d).isSome = true) ∧
    (∀ d e pat, e ∈ clickables d → pat ∈ classIdPatternTests →
      pat (classIdOf e) = true → isValidNextPageElement e = true →
      (findByClassId d).isSome = true) ∧
    (∀ d, (∀ rv l, rv ∈ relPatternList → querySelector d (relSelPred rv) = some l →
      isValidNextPageElement l = false) → findByRelAttribute d = none) ∧
    (findByRelAttribute docC7 = none ∧ findNextPage docC7 = none ∧
      isValidNextPageElement c7Hidden = false) := by
  refine ⟨?_, ?_, ?_, rfl, rfl, rfl⟩
  · intro d e he hany hv
    unfold findByTextContent
    refine findSome?_isSome_of_mem he ?_
    dsimp only
    obtain ⟨p, hp, hpe⟩ := List.any_eq_true.mp hany
    refine findSome?_isSome_of_mem hp ?_
    simp [hpe, hv]
  · intro d e pat he hpat hm hv
    unfold findByClassId
    refine findSome?_isSome_of_mem hpat ?_
    unfold classIdScan
    refine findSome?_isSome_of_mem he ?_
    simp [hm, hv]
  · intro d hrv
    unfold findByRelAttribute
    refine findSome?_eq_none_of (fun rv hmem => ?_)
    cases hq : querySelector d (relSelPred rv) with
    | none => simp
    | some l =>
      have hl := hrv rv l hmem hq
      simp [hl]

/-- Witness for the amended C7: the text matcher still finds the valid "Next"
anchor of `docC1`. -/
theorem validation_rejection_scanning_witness :
    (findByTextContent docC1).isSome = true :=
  validation_rejection_scanning.1 docC1 fixTextA
    (by rw [show clickables docC1 = [fixRelA, fixTextA, fixClassA] from rfl]
        exact List.mem_cons_of_mem _ (List.mem_cons_self _ _))
    rfl rfl

/-- C8: `getPaginationInfo` reports `currentPage` parsed from the first
`.current`/`.active`/`[aria-current="page"]` element (1 when absent or
unparsable), `totalPages` as the maximum integer parsed from the link texts of
`.pagination a, .pager a, .page-numbers a` (absent when none parse), `hasNext`
exactly when re-running the locate cascade yields a candidate, `hasPrevious`
exactly when an `a[rel="prev"]`/`.prev`/`.previous` element exists; on the
fixture `.pagination` block "1","2","3" with `.current` on "2" it returns
current page 2 and total pages 3. -/
theorem getPaginationInfo_spec :
    (∀ d, (getPaginationInfo d).hasNext = (findNextPage d).isSome) ∧
    (∀ d, (getPaginationInfo d).hasPrevious = (querySelector d prevSel).isSome) ∧
    (∀ d el n, querySelector d currentPageSel = some el →
      jsParseInt (getElementText el) = some n → (getPaginationInfo d).currentPage = n) ∧
    (∀ d el, querySelector d currentPageSel = some el →
      jsParseInt (getElementText el) = none → (getPaginationInfo d).currentPage = 1) ∧
    (∀ d, querySelector d currentPageSel = none → (getPaginationInfo d).currentPage = 1) ∧
    (∀ d, pageNumbersOf d = [] → (getPaginationInfo d).totalPages = none) ∧
    (∀ d m, (getPaginationInfo d).totalPages = some m →
      m ∈ pageNumbersOf d ∧ ∀ n ∈ pageNumbersOf d, n ≤ m) ∧
    (∀ d, pageNumbersOf d ≠ [] → (getPaginationInfo d).totalPages.isSome = true) ∧
    (getPaginationInfo docC8 =
      { currentPage := 2, totalPages := some 3, hasNext := true, hasPrevious := false }) := by
  refine ⟨fun d => rfl, fun d => rfl, ?_, ?_, ?_, ?_, ?_, ?_, rfl⟩
  · intro d el n hq hp
    unfold getPaginationInfo
    dsimp only
    rw [hq]
    dsimp only
    rw [hp]
  · intro d el hq hp
    unfold getPaginationInfo
    dsimp only
    rw [hq]
    dsimp only
    rw [hp]
  · intro d hq
    unfold getPaginationInfo
    dsimp only
    rw [hq]
  · intro d hn
    unfold getPaginationInfo
    dsimp only
    rw [hn]
  · intro d m hm
    unfold getPaginationInfo at hm
    dsimp only at hm
    cases hpn : pageNumbersOf d with
    | nil => rw [hpn] at hm ; cases hm
    | cons n ns =>
      rw [hpn] at hm
      dsimp only at hm
      obtain rfl := Option.some.inj hm
      exact ⟨foldlMax_mem n ns, fun x hx => le_foldlMax n ns x hx⟩
  · intro d hne
    unfold getPaginationInfo
    dsimp only
    cases hpn : pageNumbersOf d with
    | nil => exact absurd hpn hne
    | cons n ns => rfl

/-- Witness for C8 at the inspect fixture: the current page parses from the
`.current` link "2". -/
theorem getPaginationInfo_spec_witness : (getPaginationInfo docC8).currentPage = 2 :=
  getPaginationInfo_spec.2.2.1 docC8 c8A2 2 rfl rfl

/-- C9: any candidate of `findInfiniteScrollButton` has type `infinite-scroll`,
confidence 0.7 (70/100), `isLoadMore` set, element drawn from the
button/anchor/`role=button` universe with a lowercased-substring phrase match,
and url equal to the element's resolved URL or, failing that, the current
location; the first matching element in document order wins; a lone
`<button>Load More</button>` with no href yields the load-more candidate whose
url is the current location. -/
theorem infinite_scroll_spec :
    (∀ d c, findInfiniteScrollButton d = some c →
      c.type = "infinite-scroll" ∧ c.confidence = 70 ∧ c.isLoadMore = true ∧
      ∃ e, c.element = some e ∧ e ∈ infScrollElems d ∧
        c.url = some ((getElementUrl e).getD d.locationHref) ∧
        infiniteScrollPhrases.any
          (fun p => isInfixL (lowerChars p.data) (lowerChars (getElementText e).data)) = true) ∧
    (∀ d (l1 : List Elem) e l2, infScrollElems d = l1 ++ e :: l2 →
      (∀ x ∈ l1, infiniteScrollPhrases.any
        (fun p => isInfixL (lowerChars p.data) (lowerChars (getElementText x).data)) = false) →
      infiniteScrollPhrases.any
        (fun p => isInfixL (lowerChars p.data) (lowerChars (getElementText e).data)) = true →
      findInfiniteScrollButton d =
        some { element := some e, url := some ((getElementUrl e).getD d.locationHref),
               type := "infinite-scroll", confidence := 70, isLoadMore := true }) ∧
    (findNextPage docC9 =
      some { element := some c9Btn, url := some "https://ex.com/feed",
             type := "infinite-scroll", confidence := 70, isLoadMore := true }) := by
  refine ⟨?_, ?_, rfl⟩
  · intro d c h
    unfold findInfiniteScrollButton at h
    obtain ⟨button, hmem, hb⟩ := exists_of_findSome?_eq_some h
    dsimp only at hb
    obtain ⟨pat, hpat, hp⟩ := exists_of_findSome?_eq_some hb
    split at hp
    · obtain rfl := Option.some.inj hp
      rename_i hmatch
      exact ⟨rfl, rfl, rfl, button, rfl, hmem, rfl,
        List.any_eq_true.mpr ⟨pat, hpat, hmatch⟩⟩
    · cases hp
  · intro d l1 e l2 hsplit hnone hmatch
    unfold findInfiniteScrollButton
    rw [hsplit]
    rw [findSome?_append_none (e :: l2) ?hn]
    case hn =>
      intro x hx
      dsimp only
      refine findSome?_eq_none_of (fun p hp => ?_)
      have hfalse := hnone x hx
      rw [List.any_eq_false] at hfalse
      simp [hfalse p hp]
    refine findSome?_cons_some ?_ l2
    dsimp only
    exact findSome?_const_some hmatch

/-- Witness for C9 at the lone load-more button. -/
theorem infinite_scroll_spec_witness :
    findInfiniteScrollButton docC9 =
      some { element := some c9Btn, url := some ((getElementUrl c9Btn).getD docC9.locationHref),
             type := "infinite-scroll", confidence := 70, isLoadMore := true } :=
  infinite_scroll_spec.2.1 docC9 [] c9Btn [] rfl
    (fun x hx => absurd hx (List.not_mem_nil x)) rfl

/-- C10: `findByClassId` selects by pattern priority, not document order — the
outer loop walks the six class/id patterns in order and the inner loop scans
the clickables in document order, so the first (valid) element matching the
earliest successful pattern wins; on `docC10`, where the document-first anchor
has class `forward` and a later anchor has class `next`, the `next` anchor is
the candidate. -/
theorem classid_pattern_priority :
    (∀ d (l1 : List (String → Bool)) pat l2 c, classIdPatternTests = l1 ++ pat :: l2 →
      (∀ q ∈ l1, classIdScan d q = none) → classIdScan d pat = some c →
      findByClassId d = some c) ∧
    (∀ d (m1 : List Elem) e m2 pat, clickables d = m1 ++ e :: m2 →
      (∀ x ∈ m1, pat (classIdOf x) = false ∨ isValidNextPageElement x = false) →
      pat (classIdOf e) = true → isValidNextPageElement e = true →
      classIdScan d pat =
        some { element := some e, url := getElementUrl e, type := "class-id",
               confidence := 80, clickOnly := (getElementUrl e).isNone }) ∧
    (clickables docC10 = [c10Fwd, c10Next] ∧
      findByClassId docC10 =
        some { element := some c10Next, url := some "/nx", type := "class-id",
               confidence := 80 }) := by
  refine ⟨?_, ?_, rfl, rfl⟩
  · intro d l1 pat l2 c hsplit hnone hpat
    unfold findByClassId
    rw [hsplit, findSome?_append_none (pat :: l2) hnone]
    exact findSome?_cons_some hpat l2
  · intro d m1 e m2 pat hsplit hnone hm hv
    unfold classIdScan
    rw [hsplit]
    rw [findSome?_append_none (e :: m2) ?hn]
    case hn =>
      intro x hx
      rcases hnone x hx with hx1 | hx1 <;> simp [hx1]
    refine findSome?_cons_some ?_ m2
    simp [hm, hv]

/-- Witness for C10: the `/next/i` pattern (earliest, with an empty skipped
prefix) wins on `docC10`. -/
theorem classid_pattern_priority_witness :
    findByClassId docC10 =
      some { element := some c10Next, url := some "/nx", type := "class-id",
             confidence := 80 } :=
  classid_pattern_priority.1 docC10 [] (fun s => containsCI s "next")
    (classIdPatternTests.drop 1) _ rfl (fun q hq => absurd hq (List.not_mem_nil q)) rfl



